import Mathlib

/-!
Verification of the Dream Reality preview runtime and manifest injector
(`src/lib/preview-runtime.ts`, `src/lib/manifest-injector.ts`).

The DOM is modelled as a tree of elements; JavaScript values flowing
through the update protocol are modelled by `JValue`.
-/

/-- A JavaScript value, as carried by postMessage payloads and JSON manifests. -/
inductive JValue where
  | jnull
  | jundef
  | jstr (s : String)
  | jnum (n : Int)
  | jbool (b : Bool)
  | jobj (fields : List (String × JValue))
  | jarr (items : List JValue)

namespace JValue

/-- JavaScript truthiness. -/
def truthy : JValue → Bool
  | jnull => false
  | jundef => false
  | jstr s => !(s == "")
  | jnum n => !(n == 0)
  | jbool b => b
  | jobj _ => true
  | jarr _ => true

/-- `typeof v === "object"` (true for objects, arrays and null). -/
def typeofObject : JValue → Bool
  | jnull => true
  | jobj _ => true
  | jarr _ => true
  | _ => false

def isArray : JValue → Bool
  | jarr _ => true
  | _ => false

/-- A non-null, non-array object (the nested-object branch condition). -/
def isPlainObject : JValue → Bool
  | jobj _ => true
  | _ => false

def isNullish : JValue → Bool
  | jnull => true
  | jundef => true
  | _ => false

def isNull : JValue → Bool
  | jnull => true
  | _ => false

/-- Strict equality `v === s` against a string literal. -/
def isStr (v : JValue) (s : String) : Bool :=
  match v with
  | jstr t => t == s
  | _ => false

/-- Strict equality `v === false`. -/
def isFalseLit : JValue → Bool
  | jbool false => true
  | _ => false

mutual
/-- JavaScript `String(v)` coercion. -/
def jToString : JValue → String
  | jnull => "null"
  | jundef => "undefined"
  | jstr s => s
  | jnum n => toString n
  | jbool b => if b then "true" else "false"
  | jobj _ => "[object Object]"
  | jarr items => jArrToString items

/-- `String(array)` joins element coercions with commas (null/undefined become empty). -/
def jArrToString : List JValue → String
  | [] => ""
  | [x] => if x.isNullish then "" else jToString x
  | x :: xs => (if x.isNullish then "" else jToString x) ++ "," ++ jArrToString xs
end

/-- Property access `v[key]` for a string key; `undefined` when absent
    (JS object keys are unique, so first-match lookup is unambiguous). -/
def lookup (v : JValue) (key : String) : JValue :=
  match v with
  | jobj fields => (fields.lookup key).getD jundef
  | _ => jundef

/-- `Object.entries(v)`; `none` models the TypeError thrown on null/undefined. -/
def entries : JValue → Option (List (String × JValue))
  | jnull => none
  | jundef => none
  | jobj fields => some fields
  | jarr items => some (items.enum.map (fun p => (toString p.1, p.2)))
  | jstr s => some (s.data.enum.map (fun p => (toString p.1, jstr (String.mk [p.2]))))
  | _ => some []

end JValue

/-! String helpers mirroring the JavaScript string operations used by the
    runtime (`startsWith`, `endsWith`, `includes`, `toLowerCase`), implemented
    over character lists so the kernel can evaluate them. -/

/-- JavaScript `s.startsWith(p)`. -/
def strStarts (s p : String) : Bool := p.data.isPrefixOf s.data

/-- JavaScript `s.endsWith(p)`. -/
def strEnds (s p : String) : Bool := p.data.isSuffixOf s.data

def strContainsAux (sub : List Char) : List Char → Bool
  | [] => sub.isEmpty
  | c :: cs => sub.isPrefixOf (c :: cs) || strContainsAux sub cs

/-- JavaScript `s.includes(sub)`. -/
def strContains (s sub : String) : Bool := strContainsAux sub.data s.data

def lcChar (c : Char) : Char :=
  if c.toNat ≥ 65 && c.toNat ≤ 90 then Char.ofNat (c.toNat + 32) else c

/-- ASCII `s.toLowerCase()` (tag names are ASCII). -/
def strLower (s : String) : String := String.mk (s.data.map lcChar)

/-- `s.slice(0, -7)`: drop the last seven characters (strips a `__style` suffix). -/
def strDropLast7 (s : String) : String := String.mk (s.data.take (s.data.length - 7))

/-!
The DOM model. An element carries its tag name, attribute map, inline style
declaration map, its own text (the result of a `textContent` write collapses
children into text, modelled by clearing `kids` and setting `text`), the
event listeners attached to it (by event name, in registration order), and
its child elements.
-/

inductive Elem where
  | el (tag : String) (attrs : List (String × String)) (style : List (String × String))
       (text : String) (listeners : List String) (kids : List Elem)

namespace Elem

def tag : Elem → String
  | el t _ _ _ _ _ => t

def attrs : Elem → List (String × String)
  | el _ a _ _ _ _ => a

def style : Elem → List (String × String)
  | el _ _ st _ _ _ => st

def text : Elem → String
  | el _ _ _ tx _ _ => tx

def listeners : Elem → List String
  | el _ _ _ _ ls _ => ls

def kids : Elem → List Elem
  | el _ _ _ _ _ ks => ks

def withKids (e : Elem) (ks : List Elem) : Elem :=
  el e.tag e.attrs e.style e.text e.listeners ks

/-- `getAttribute`: `none` models a missing attribute (JS `null`). -/
def attr (e : Elem) (name : String) : Option String := e.attrs.lookup name

def hasAttr (e : Elem) (name : String) : Bool := (e.attr name).isSome

/-- Update-or-append into an attribute/style association list (keys are unique). -/
def propSet (l : List (String × String)) (key v : String) : List (String × String) :=
  if (l.lookup key).isSome then l.map (fun q => if q.1 == key then (key, v) else q)
  else l ++ [(key, v)]

def propRemove (l : List (String × String)) (key : String) : List (String × String) :=
  l.filter (fun q => !(q.1 == key))

/-- `el.setAttribute(name, v)` (also models property writes to `src`/`href`). -/
def setAttr (e : Elem) (name v : String) : Elem :=
  el e.tag (propSet e.attrs name v) e.style e.text e.listeners e.kids

/-- `el.style[prop] = v`. -/
def setStyleProp (e : Elem) (prop v : String) : Elem :=
  el e.tag e.attrs (propSet e.style prop v) e.text e.listeners e.kids

/-- `el.style.removeProperty(prop)` (also setting a style property to `''`). -/
def removeStyleProp (e : Elem) (prop : String) : Elem :=
  el e.tag e.attrs (propRemove e.style prop) e.text e.listeners e.kids

/-- `el.textContent = s`: replaces all children with the given text. -/
def setText (e : Elem) (s : String) : Elem :=
  el e.tag e.attrs e.style s e.listeners []

/-- `el.addEventListener(name, freshClosure)`: closures are distinct on every
    registration, so each call appends a listener. -/
def addListener (e : Elem) (name : String) : Elem :=
  el e.tag e.attrs e.style e.text (e.listeners ++ [name]) e.kids

/-- Lowercased tag name (`el.tagName.toLowerCase()`). -/
def tagLower (e : Elem) : String := strLower e.tag

/-- Reads a style declaration (for stating style-related properties). -/
def styleProp (e : Elem) (prop : String) : Option String := e.style.lookup prop

end Elem

instance : Inhabited Elem := ⟨.el "" [] [] "" [] []⟩

/-- CSS selector predicate `[name="v"]`. -/
def attrIs (name v : String) (e : Elem) : Bool := e.attr name == some v

/-- CSS selector predicate `[name]` (attribute present, any value). -/
def attrPresent (name : String) (e : Elem) : Bool := e.hasAttr name

/-- A selector that only inspects the tag and attributes of a node (all the
    runtime's selectors are attribute selectors). -/
def tagAttrsOnly (p : Elem → Bool) : Prop :=
  ∀ e e' : Elem, e.tag = e'.tag → e.attrs = e'.attrs → p e = p e'

/-! Tree traversal combinators modelling `querySelector` (first match in
    document order), `querySelectorAll` + `forEach` (rewrite every outermost
    match; the runtime never nests matching containers), match counting, and
    `remove()` of every matching node. -/

mutual
/-- First match of `p` within an element: the element itself, else its first
    matching descendant in document order. -/
def findE (p : Elem → Bool) (e : Elem) : Option Elem :=
  match e with
  | .el t a st tx ls ks =>
    if p (.el t a st tx ls ks) then some (.el t a st tx ls ks) else findL p ks

/-- First node in a forest (preorder, node before its descendants) satisfying `p`. -/
def findL (p : Elem → Bool) : List Elem → Option Elem
  | [] => none
  | k :: rest =>
    match findE p k with
    | some r => some r
    | none => findL p rest
end

/-- `e.querySelector(p)`: first matching strict descendant of `e`. -/
def Elem.query (e : Elem) (p : Elem → Bool) : Option Elem := findL p e.kids

mutual
/-- Rewrite by `f` the first match of `p` inside an element known to contain one. -/
def rewriteE (p : Elem → Bool) (f : Elem → Elem) (e : Elem) : Elem :=
  match e with
  | .el t a st tx ls ks =>
    if p (.el t a st tx ls ks) then f (.el t a st tx ls ks)
    else .el t a st tx ls (rewriteL p f ks)

/-- Rewrite the first node satisfying `p` in a forest by `f`. -/
def rewriteL (p : Elem → Bool) (f : Elem → Elem) : List Elem → List Elem
  | [] => []
  | k :: rest =>
    match findE p k with
    | some _ => rewriteE p f k :: rest
    | none => k :: rewriteL p f rest
end

/-- Mutate (via `f`) the first matching descendant of `e`, in place in the tree. -/
def Elem.rewriteQuery (e : Elem) (p : Elem → Bool) (f : Elem → Elem) : Elem :=
  e.withKids (rewriteL p f e.kids)

mutual
def countE (p : Elem → Bool) (e : Elem) : Nat :=
  match e with
  | .el t a st tx ls ks => (if p (.el t a st tx ls ks) then 1 else 0) + countL p ks

/-- Number of nodes satisfying `p` in a forest (`querySelectorAll(...).length`). -/
def countL (p : Elem → Bool) : List Elem → Nat
  | [] => 0
  | k :: rest => countE p k + countL p rest
end

def Elem.countQuery (e : Elem) (p : Elem → Bool) : Nat := countL p e.kids

mutual
def rewriteAllE (p : Elem → Bool) (f : Elem → Elem) (e : Elem) : Elem :=
  match e with
  | .el t a st tx ls ks =>
    if p (.el t a st tx ls ks) then f (.el t a st tx ls ks)
    else .el t a st tx ls (rewriteAllL p f ks)

/-- Rewrite every outermost node satisfying `p` in a forest by `f`
    (`querySelectorAll` + `forEach`; matching containers are not nested in
    the templates' DOM vocabulary). -/
def rewriteAllL (p : Elem → Bool) (f : Elem → Elem) : List Elem → List Elem
  | [] => []
  | k :: rest => rewriteAllE p f k :: rewriteAllL p f rest
end

def Elem.rewriteQueryAll (e : Elem) (p : Elem → Bool) (f : Elem → Elem) : Elem :=
  e.withKids (rewriteAllL p f e.kids)

mutual
def rewriteEE (p : Elem → Bool) (f : Elem → Elem × Bool) (e : Elem) : Elem × Bool :=
  match e with
  | .el t a st tx ls ks =>
    if p (.el t a st tx ls ks) then f (.el t a st tx ls ks)
    else
      let (ks', th) := rewriteLE p f ks
      (.el t a st tx ls ks', th)

/-- Exception-threaded variant of `rewriteL` (the boolean flags a thrown
    TypeError; the rewrite of the single match may throw). -/
def rewriteLE (p : Elem → Bool) (f : Elem → Elem × Bool) : List Elem → List Elem × Bool
  | [] => ([], false)
  | k :: rest =>
    match findE p k with
    | some _ =>
      let (k', th) := rewriteEE p f k
      (k' :: rest, th)
    | none =>
      let (rest', th) := rewriteLE p f rest
      (k :: rest', th)
end

def Elem.rewriteQueryE (e : Elem) (p : Elem → Bool) (f : Elem → Elem × Bool) : Elem × Bool :=
  let (ks, th) := rewriteLE p f e.kids
  (e.withKids ks, th)

mutual
def rewriteAllEE (p : Elem → Bool) (f : Elem → Elem × Bool) (e : Elem) : Elem × Bool :=
  match e with
  | .el t a st tx ls ks =>
    if p (.el t a st tx ls ks) then f (.el t a st tx ls ks)
    else
      let (ks', th) := rewriteAllLE p f ks
      (.el t a st tx ls ks', th)

/-- Exception-threaded variant of `rewriteAllL`: a throw inside `forEach`
    aborts the iteration, keeping the rewrites already performed. -/
def rewriteAllLE (p : Elem → Bool) (f : Elem → Elem × Bool) : List Elem → List Elem × Bool
  | [] => ([], false)
  | k :: rest =>
    let (k', th) := rewriteAllEE p f k
    if th then (k' :: rest, true)
    else
      let (rest', th') := rewriteAllLE p f rest
      (k' :: rest', th')
end

def Elem.rewriteQueryAllE (e : Elem) (p : Elem → Bool) (f : Elem → Elem × Bool) : Elem × Bool :=
  let (ks, th) := rewriteAllLE p f e.kids
  (e.withKids ks, th)

mutual
def dropItemsE (e : Elem) : Elem :=
  match e with
  | .el t a st tx ls ks => .el t a st tx ls (dropItems ks)

/-- Remove every node carrying `data-dr-list-item` (at any depth) from a
    forest, keeping all other structure (`existingItems.forEach(remove)`). -/
def dropItems : List Elem → List Elem
  | [] => []
  | k :: rest =>
    if attrPresent "data-dr-list-item" k then dropItems rest
    else dropItemsE k :: dropItems rest
end

/-- `document.querySelector(p)`: the search space of a document-level query
    includes the root element itself. -/
def docFind (doc : Elem) (p : Elem → Bool) : Option Elem := findE p doc

/-- Mutate the first document-level match in place. -/
def docRewrite (doc : Elem) (p : Elem → Bool) (f : Elem → Elem) : Elem :=
  match findE p doc with
  | some _ => rewriteE p f doc
  | none => doc

/-!
Embedded Sync Channel — translation of `src/lib/preview-runtime.ts`.
-/

namespace PreviewRuntime

open JValue

/-- The fixed style allow list (`_allowedStyleProps`, lines 36-47). -/
def allowedStyleProps : List String :=
  ["textAlign", "fontWeight", "fontSize", "letterSpacing",
   "lineHeight", "color", "textTransform", "opacity",
   "paddingTop", "paddingBottom", "paddingLeft", "paddingRight",
   "marginTop", "marginBottom",
   "gap", "justifyContent", "alignItems", "flexDirection",
   "backgroundColor", "borderRadius"]

/-- The per-property loop of `handleStyleUpdate` (lines 273-277): apply each
    entry of the payload that is on the allow list; silently drop the rest.
    CSSOM stringifies assigned values, so the payload is an entry list of
    strings (the message type declares `Record<string, string>`). -/
def applyAllowedStyles (e : Elem) (styles : List (String × String)) : Elem :=
  styles.foldl
    (fun acc pv => if allowedStyleProps.contains pv.1 then acc.setStyleProp pv.1 pv.2 else acc)
    e

/-- `handleStyleUpdate` resolved within one section element: `"__section"`
    targets the section container itself, otherwise the first
    `[data-dr-style=field]` descendant (lines 263-278; the document-level
    section lookup resolves to this same element). -/
def applyStylesInSection (se : Elem) (field : String) (styles : List (String × String)) : Elem :=
  if field == "__section" then applyAllowedStyles se styles
  else match se.query (attrIs "data-dr-style" field) with
    | none => se
    | some _ => se.rewriteQuery (attrIs "data-dr-style" field) (applyAllowedStyles · styles)

/-- `handleStyleUpdate(sectionId, field, styles)` at document level
    (lines 263-278). -/
def handleStyleUpdate (doc : Elem) (sectionId field : String)
    (styles : List (String × String)) : Elem :=
  docRewrite doc (attrIs "data-dr-section" sectionId) (applyStylesInSection · field styles)

/-- `handleSectionToggle` (lines 254-259): `style.display = enabled ? '' : 'none'`
    (assigning `''` removes the declaration). -/
def handleSectionToggle (doc : Elem) (sectionId : String) (enabled : Bool) : Elem :=
  docRewrite doc (attrIs "data-dr-section" sectionId)
    (fun se => if enabled then se.removeStyleProp "display" else se.setStyleProp "display" "none")

/-- The per-node write of `updateFieldElement` (lines 306-317): unhide, then
    dispatch on tag — image source, link target for fields mentioning `href`,
    or text content. -/
def writeFieldValue (field : String) (v : JValue) (e : Elem) : Elem :=
  let e := e.removeStyleProp "display"
  if e.tagLower == "img" then e.setAttr "src" (jToString v)
  else if e.tagLower == "a" && strContains field "href" then e.setAttr "href" (jToString v)
  else e.setText (jToString v)

/-- `updateFieldElement(container, field, value)` (lines 300-318): locate the
    first `[data-dr-field=field]` descendant; ignore a missing node or a
    null/undefined value. -/
def updateFieldElement (container : Elem) (field : String) (v : JValue) : Elem :=
  match container.query (attrIs "data-dr-field" field) with
  | none => container
  | some _ =>
    if v.isNullish then container
    else container.rewriteQuery (attrIs "data-dr-field" field) (writeFieldValue field v)

/-- The shared role dispatch for an object item's flat entry inside a list item
    (lines 369-382): image source, link text plus `href` taken from the item's
    own `href` key when truthy, otherwise text content. -/
def writeItemEntry (itemData v : JValue) (e : Elem) : Elem :=
  if e.tagLower == "img" then e.setAttr "src" (jToString v)
  else if e.tagLower == "a" then
    let e := e.setText (jToString v)
    if (itemData.lookup "href").truthy then e.setAttr "href" (jToString (itemData.lookup "href"))
    else e
  else e.setText (jToString v)

/-- Populate one deep-copied template with one item record
    (lines 343-386). Scalar items write the first field-tagged descendant;
    object items are filled per own key, one level of dot-path nesting
    supported. -/
def populateItem (tpl : Elem) (itemData : JValue) : Elem :=
  if !itemData.typeofObject || itemData.isNull then
    tpl.rewriteQuery (attrPresent "data-dr-field") (fun e => e.setText (jToString itemData))
  else
    (itemData.entries.getD []).foldl
      (fun item kv =>
        if kv.2.isPlainObject then
          (kv.2.entries.getD []).foldl
            (fun item skv =>
              item.rewriteQuery (attrIs "data-dr-field" (kv.1 ++ "." ++ skv.1))
                (fun e => e.setText (jToString skv.2)))
            item
        else
          match item.query (attrIs "data-dr-field" kv.1) with
          | none => item
          | some _ => item.rewriteQuery (attrIs "data-dr-field" kv.1) (writeItemEntry itemData kv.2))
      tpl

/-- The `forEach` body of `updateArrayField` (lines 330-387): capture the first
    item child as a template, remove every existing item, then append one
    populated copy per entry. -/
def reconcileContainer (listEl : Elem) (items : List JValue) : Elem :=
  match listEl.query (attrPresent "data-dr-list-item") with
  | none => listEl
  | some tpl => listEl.withKids (dropItems listEl.kids ++ items.map (populateItem tpl))

/-- `updateArrayField(container, listName, items, fallbackListName?)`
    (lines 320-388). -/
def updateArrayField (container : Elem) (listName : String) (items : List JValue)
    (fallbackListName : Option String) : Elem :=
  if container.countQuery (attrIs "data-dr-list" listName) == 0 then
    match fallbackListName with
    | some fb =>
      if container.countQuery (attrIs "data-dr-list" fb) == 0 then container
      else container.rewriteQueryAll (attrIs "data-dr-list" fb) (reconcileContainer · items)
    | none => container
  else container.rewriteQueryAll (attrIs "data-dr-list" listName) (reconcileContainer · items)

/-- `handleFieldUpdate` (lines 238-250). -/
def handleFieldUpdate (doc : Elem) (sectionId field : String) (v : JValue) : Elem :=
  docRewrite doc (attrIs "data-dr-section" sectionId)
    (fun se => match v with
      | .jarr items => updateArrayField se field items (some sectionId)
      | _ => updateFieldElement se field v)

/-- `applyThemeCssVars` (lines 219-234): conditionally write up to nine custom
    properties on the document root's style. -/
def applyThemeCssVars (doc : Elem) (themeData : JValue) : Elem :=
  let colors := themeData.lookup "colors"
  let typography := themeData.lookup "typography"
  let radius := themeData.lookup "radius"
  let setIf (d : Elem) (v : JValue) (name : String) : Elem :=
    if v.truthy then d.setStyleProp name (jToString v) else d
  let d := setIf doc (colors.lookup "primary") "--primary"
  let d := setIf d (colors.lookup "primaryForeground") "--primary-foreground"
  let d := setIf d (colors.lookup "background") "--background"
  let d := setIf d (colors.lookup "surface") "--surface"
  let d := setIf d (colors.lookup "muted") "--muted"
  let d := setIf d (colors.lookup "border") "--border"
  let d := setIf d (typography.lookup "fontSans") "--font-sans"
  let d := setIf d (typography.lookup "fontSerif") "--font-serif"
  setIf d (radius.lookup "base") "--radius"

/-- One field of a full update applied inside a section element
    (lines 177-208): `__style` object values are redirected to the Style
    Patcher; plain objects fan out to dot-notation fields; arrays go to the
    List Reconciler followed by per-index dotted field references; everything
    else is a single field write. -/
def applyFieldInSection (sectionId : String) (se : Elem) (field : String) (v : JValue) : Elem :=
  if strEnds field "__style" && v.isPlainObject then
    applyStylesInSection se (strDropLast7 field)
      ((v.entries.getD []).map (fun kv => (kv.1, jToString kv.2)))
  else if v.isPlainObject then
    (v.entries.getD []).foldl
      (fun s kv => updateFieldElement s (field ++ "." ++ kv.1) kv.2) se
  else match v with
    | .jarr items =>
      let s1 := updateArrayField se field items (some sectionId)
      items.enum.foldl
        (fun s iv =>
          if iv.2.truthy && iv.2.typeofObject then
            (iv.2.entries.getD []).foldl
              (fun s2 kv =>
                updateFieldElement s2 (field ++ "." ++ toString iv.1 ++ "." ++ kv.1) kv.2)
              s
          else updateFieldElement s (field ++ "." ++ toString iv.1) iv.2)
        s1
    | _ => updateFieldElement se field v

/-- The full-update field loop for one section's field map. -/
def applySectionFields (sectionId : String) (se : Elem) (fields : List (String × JValue)) : Elem :=
  fields.foldl (fun s fv => applyFieldInSection sectionId s fv.1 fv.2) se

/-- `setupInlineEditing` (lines 392-465): every field-tagged node that is not
    an image and not inside (or itself) a list item becomes contenteditable,
    gets the text affordance styles, and gets fresh focus/blur/input
    listeners. `closest` is tracked as an ancestors-or-self flag. -/
def bindNode (e : Elem) : Elem :=
  ((((e.setAttr "contenteditable" "true").setStyleProp "outline" "none").setStyleProp
    "cursor" "text").addListener "focus").addListener "blur" |>.addListener "input"

mutual
def setupInlineEditingE (inItem : Bool) (e : Elem) : Elem :=
  match e with
  | .el t a st tx ls ks =>
    let e0 := Elem.el t a st tx ls ks
    let inItem' := inItem || attrPresent "data-dr-list-item" e0
    let e' :=
      if attrPresent "data-dr-field" e0 && !(e0.tagLower == "img") && !inItem' then bindNode e0
      else e0
    e'.withKids (setupInlineEditingL inItem' ks)

def setupInlineEditingL (inItem : Bool) : List Elem → List Elem
  | [] => []
  | k :: rest => setupInlineEditingE inItem k :: setupInlineEditingL inItem rest
end

def setupInlineEditing (doc : Elem) : Elem :=
  match setupInlineEditingL false [doc] with
  | [d] => d
  | _ => doc

/-- `setupImageClickHandlers` (lines 469-513): images with a field attribute
    get hover/click affordances and fresh mouseenter/mouseleave/click
    listeners. -/
def bindImage (e : Elem) : Elem :=
  (((e.setStyleProp "cursor" "pointer").setStyleProp "transition"
    "outline 0.15s ease").addListener "mouseenter").addListener "mouseleave" |>.addListener "click"

mutual
def setupImageClickHandlersE (e : Elem) : Elem :=
  match e with
  | .el t a st tx ls ks =>
    let e0 := Elem.el t a st tx ls ks
    let e' := if e0.tagLower == "img" && attrPresent "data-dr-field" e0 then bindImage e0 else e0
    e'.withKids (setupImageClickHandlersL ks)

def setupImageClickHandlersL : List Elem → List Elem
  | [] => []
  | k :: rest => setupImageClickHandlersE k :: setupImageClickHandlersL rest
end

def setupImageClickHandlers (doc : Elem) : Elem :=
  match setupImageClickHandlersL [doc] with
  | [d] => d
  | _ => doc

/-- `handleFullUpdate` (lines 157-215): toggle every listed section, route
    every section's field map (theme data to the Theme Applier), then re-bind
    the Inline Edit Surface. The routing portion is named separately so the
    two transports' routing can be compared. -/
def fullUpdateRouting (doc : Elem) (data : List (String × List (String × JValue)))
    (sections : List (String × Bool)) : Elem :=
  let d1 := sections.foldl (fun d se => handleSectionToggle d se.1 se.2) doc
  data.foldl
    (fun d sd =>
      if sd.1 == "theme" then applyThemeCssVars d (.jobj sd.2)
      else docRewrite d (attrIs "data-dr-section" sd.1) (fun se => applySectionFields sd.1 se sd.2))
    d1

def handleFullUpdate (doc : Elem) (data : List (String × List (String × JValue)))
    (sections : List (String × Bool)) : Elem :=
  setupInlineEditing (fullUpdateRouting doc data sections)

end PreviewRuntime

/-!
Remote Hydration Channel — translation of `src/lib/manifest-injector.ts`.
A boolean flag threads a thrown TypeError (manifest payloads are arbitrary
JSON); the `catch` in `initManifestInjector` receives it.
-/

namespace ManifestInjector

open JValue

/-- `updateField` (lines 165-179): identical write discipline to the embedded
    channel's `updateFieldElement`. -/
def updateField (container : Elem) (field : String) (v : JValue) : Elem :=
  match container.query (attrIs "data-dr-field" field) with
  | none => container
  | some _ =>
    if v.isNullish then container
    else container.rewriteQuery (attrIs "data-dr-field" field)
      (PreviewRuntime.writeFieldValue field v)

/-- The per-entry write of this channel's list populate loop (lines 196-211):
    image source, link text plus item `href`, or text content — no scalar-item
    branch and no nested dot-path branch. -/
def writeItemEntry (itemData v : JValue) (e : Elem) : Elem :=
  if e.tagLower == "img" then e.setAttr "src" (jToString v)
  else if e.tagLower == "a" then
    let e := e.setText (jToString v)
    if (itemData.lookup "href").truthy then e.setAttr "href" (jToString (itemData.lookup "href"))
    else e
  else e.setText (jToString v)

/-- Populate one template copy (lines 194-211). `Object.entries(itemData)`
    throws (`none`) on a null or undefined item. -/
def populateItem (tpl : Elem) (itemData : JValue) : Option Elem :=
  (itemData.entries).map
    (fun fields =>
      fields.foldl
        (fun item kv =>
          match item.query (attrIs "data-dr-field" kv.1) with
          | none => item
          | some _ => item.rewriteQuery (attrIs "data-dr-field" kv.1) (writeItemEntry itemData kv.2))
        tpl)

/-- Populate one copy per item, stopping at the first thrown item (the items
    populated before the throw were already appended). -/
def populateAll (tpl : Elem) : List JValue → List Elem × Bool
  | [] => ([], false)
  | it :: rest =>
    match populateItem tpl it with
    | none => ([], true)
    | some n =>
      let (ns, th) := populateAll tpl rest
      (n :: ns, th)

/-- The `forEach` body of this channel's `updateArrayField` (lines 185-215). -/
def reconcileContainer (listEl : Elem) (items : List JValue) : Elem × Bool :=
  match listEl.query (attrPresent "data-dr-list-item") with
  | none => (listEl, false)
  | some tpl =>
    let (newItems, th) := populateAll tpl items
    (listEl.withKids (dropItems listEl.kids ++ newItems), th)

/-- `updateArrayField(container, listName, items)` (lines 181-216): no
    fallback list name on this channel. -/
def updateArrayField (container : Elem) (listName : String) (items : List JValue) :
    Elem × Bool :=
  if container.countQuery (attrIs "data-dr-list" listName) == 0 then (container, false)
  else container.rewriteQueryAllE (attrIs "data-dr-list" listName) (reconcileContainer · items)

/-- `applyThemeCssVars` (lines 126-141) — a verbatim copy of the embedded
    channel's theme applier. -/
def applyThemeCssVars (doc : Elem) (themeData : JValue) : Elem :=
  let colors := themeData.lookup "colors"
  let typography := themeData.lookup "typography"
  let radius := themeData.lookup "radius"
  let setIf (d : Elem) (v : JValue) (name : String) : Elem :=
    if v.truthy then d.setStyleProp name (jToString v) else d
  let d := setIf doc (colors.lookup "primary") "--primary"
  let d := setIf d (colors.lookup "primaryForeground") "--primary-foreground"
  let d := setIf d (colors.lookup "background") "--background"
  let d := setIf d (colors.lookup "surface") "--surface"
  let d := setIf d (colors.lookup "muted") "--muted"
  let d := setIf d (colors.lookup "border") "--border"
  let d := setIf d (typography.lookup "fontSans") "--font-sans"
  let d := setIf d (typography.lookup "fontSerif") "--font-serif"
  setIf d (radius.lookup "base") "--radius"

/-- `{...section.data}`: a shallow spread into a fresh entry list. -/
def jSpread : JValue → List (String × JValue)
  | .jobj fields => fields
  | .jarr items => items.enum.map (fun p => (toString p.1, p.2))
  | .jstr s => s.data.enum.map (fun p => (toString p.1, .jstr (String.mk [p.2])))
  | _ => []

/-- Replace the value at a key in an entry list, keeping its position
    (JS property update on an existing key). -/
def entryUpdate (l : List (String × JValue)) (key : String) (v : JValue) :
    List (String × JValue) :=
  l.map (fun kv => if kv.1 == key then (key, v) else kv)

/-- Member access `v.key` as an expression: a TypeError (`none`) on a null or
    undefined base, otherwise the property value (`undefined` when absent). -/
def jMember (v : JValue) (key : String) : Option JValue :=
  match v with
  | .jnull => none
  | .jundef => none
  | _ => some (v.lookup key)

/-- SameValueZero equality of `Map` keys. Primitive keys compare by value;
    object and array keys compare by reference, and every object in a parsed
    manifest is a distinct reference, so an object key never equals a
    separately parsed lookup argument. -/
def jKeyEq : JValue → JValue → Bool
  | .jstr a, .jstr b => a == b
  | .jnum a, .jnum b => a == b
  | .jbool a, .jbool b => a == b
  | .jnull, .jnull => true
  | .jundef, .jundef => true
  | _, _ => false

/-- `Map.set(key, item)`: overwrite in place when a SameValueZero-equal key
    exists, else append (insertion order preserved). -/
def jMapSet (idx : List (JValue × JValue)) (key item : JValue) : List (JValue × JValue) :=
  if idx.any (fun kv => jKeyEq kv.1 key) then
    idx.map (fun kv => if jKeyEq kv.1 key then (kv.1, item) else kv)
  else idx ++ [(key, item)]

/-- `Map.get(key)`: `undefined` when no SameValueZero-equal key is present. -/
def jMapGet (idx : List (JValue × JValue)) (key : JValue) : JValue :=
  match idx.find? (fun kv => jKeyEq kv.1 key) with
  | none => JValue.jundef
  | some kv => kv.2

/-- `resolveCollectionRefs(section, index)` (lines 145-161): for each schema
    property marked `collectionPicker` whose data value is an array led by a
    string, run every reference — whatever its type — through `Map.get` and
    keep the truthy hits. -/
def resolveCollectionRefs (sectionJ : JValue) (index : List (JValue × JValue)) :
    List (String × JValue) :=
  let data := jSpread (sectionJ.lookup "data")
  let schema := (((sectionJ.lookup "schema").lookup "properties").entries).getD []
  schema.foldl
    (fun data kv =>
      if (kv.2.lookup "uiWidget").isStr "collectionPicker" then
        match (data.lookup kv.1).getD .jundef with
        | .jarr refs =>
          if !refs.isEmpty &&
             (match refs.head? with | some (.jstr _) => true | _ => false) then
            entryUpdate data kv.1
              (.jarr ((refs.map (fun r => jMapGet index r)).filter (·.truthy)))
          else data
        | _ => data
      else data)
    data

/-- `for (const x of v ?? [])`: null/undefined default to an empty iteration;
    arrays iterate their items; strings iterate their characters; anything
    else throws (`none`). -/
def jForOf : JValue → Option (List JValue)
  | .jnull => some []
  | .jundef => some []
  | .jarr items => some items
  | .jstr s => some (s.data.map (fun c => .jstr (String.mk [c])))
  | _ => none

/-- The collection index build of `applyManifest` (lines 73-78): a `Map` from
    the raw `item.id` value to the item, later writes overwriting earlier
    ones, storing only truthy ids. Member access on a null or undefined
    collection or item entry, and iteration over a non-iterable `collections`
    or `col.data`, throw (`none`), aborting `applyManifest` before any DOM
    mutation. -/
def buildCollectionIndex (m : JValue) : Option (List (JValue × JValue)) :=
  (jForOf (m.lookup "collections")).bind
    (fun cols =>
      cols.foldl
        (fun acc col =>
          acc.bind (fun idx =>
            (jMember col "data").bind (fun colData =>
              (jForOf colData).bind
                (fun colItems =>
                  colItems.foldl
                    (fun acc2 item =>
                      acc2.bind (fun idx2 =>
                        (jMember item "id").map (fun itemId =>
                          if itemId.truthy then jMapSet idx2 itemId item else idx2)))
                    (some idx)))))
        (some []))

/-- One field of a section's resolved data map (lines 107-120): `__style`
    keys are skipped outright; plain objects fan out to dot-notation fields;
    arrays go to this channel's list applier; everything else is a single
    field write. -/
def applyFieldInSection (se : Elem) (field : String) (v : JValue) : Elem × Bool :=
  if strEnds field "__style" then (se, false)
  else if v.isPlainObject then
    ((v.entries.getD []).foldl (fun s kv => updateField s (field ++ "." ++ kv.1) kv.2) se, false)
  else match v with
    | .jarr items => updateArrayField se field items
    | _ => (updateField se field v, false)

/-- The field loop over one section's resolved data, stopping at a throw. -/
def applySectionFields (se : Elem) (fields : List (String × JValue)) : Elem × Bool :=
  fields.foldl
    (fun acc kv => if acc.2 then acc else applyFieldInSection acc.1 kv.1 kv.2)
    (se, false)

/-- The theme lookup `manifest.sections.find((s) => s.id === 'theme')`
    (line 81): the member access `s.id` on a null or undefined entry throws a
    TypeError (`none`), aborting `applyManifest`; the search stops at the
    first match as `Array.prototype.find` does. -/
def findTheme : List JValue → Option (Option JValue)
  | [] => some none
  | s :: rest =>
    match jMember s "id" with
    | none => none
    | some sid => if sid.isStr "theme" then some (some s) else findTheme rest

/-- The per-section work of `applyManifest` (lines 87-121) for one section
    record: the `section.id` access throws on a null or undefined record;
    theme sections are skipped here (handled before the loop); a missing
    section element skips the section; `enabled === false` hides the section
    and skips its data; otherwise the display is reset and the resolved
    field map is applied through the section element. -/
def applySection (doc : Elem) (sectionJ : JValue) (index : List (JValue × JValue)) :
    Elem × Bool :=
  match jMember sectionJ "id" with
  | none => (doc, true)
  | some sidv =>
    if sidv.isStr "theme" then (doc, false)
    else
      let sel := attrIs "data-dr-section" (jToString sidv)
      match docFind doc sel with
      | none => (doc, false)
      | some _ =>
        if (sectionJ.lookup "enabled").isFalseLit then
          (docRewrite doc sel (fun se => se.setStyleProp "display" "none"), false)
        else
          let doc := docRewrite doc sel (fun se => se.removeStyleProp "display")
          if !(sectionJ.lookup "data").truthy then (doc, false)
          else
            let resolved := resolveCollectionRefs sectionJ index
            let (ds, th) := rewriteLE sel (fun se => applySectionFields se resolved) [doc]
            (ds.headI, th)

/-- `applyManifest(manifest)` (lines 71-122). -/
def applyManifest (m : JValue) (doc : Elem) : Elem × Bool :=
  match buildCollectionIndex m with
  | none => (doc, true)
  | some index =>
    match m.lookup "sections" with
    | .jarr sections =>
      match findTheme sections with
      | none => (doc, true)
      | some themeOpt =>
        let doc :=
          match themeOpt with
          | some themeSection =>
            if (themeSection.lookup "data").truthy then
              applyThemeCssVars doc (themeSection.lookup "data")
            else doc
          | none => doc
        sections.foldl
          (fun acc s => if acc.2 then acc else applySection acc.1 s index)
          (doc, false)
    | _ => (doc, true)

/-- The environment's answer to the single manifest fetch: `none` models a
    thrown network error; a response carries `response.ok` and the parsed
    JSON body (`none` when `response.json()` throws). -/
structure FetchOutcome where
  ok : Bool
  body : Option JValue

/-- The observable result of one hydration attempt: how many fetches were
    issued, the final document, and the console log tail. -/
structure HydrationResult where
  fetches : Nat
  dom : Elem
  logs : List String

/-- `initManifestInjector(url)` (lines 34-67). -/
def initManifestInjector (url : String) (response : Option FetchOutcome) (doc : Elem) :
    HydrationResult :=
  if !(strStarts url "https://" || strStarts url "http://localhost" ||
       strStarts url "http://127.0.0.1") then
    ⟨0, doc, ["[manifest-injector] Blocked non-HTTPS manifest URL"]⟩
  else
    match response with
    | none => ⟨1, doc, ["[manifest-injector] Error"]⟩
    | some r =>
      if !r.ok then ⟨1, doc, ["[manifest-injector] Failed to fetch manifest"]⟩
      else
        match r.body with
        | none => ⟨1, doc, ["[manifest-injector] Error"]⟩
        | some body =>
          if !(body.truthy && (body.lookup "sections").isArray) then
            ⟨1, doc, ["[manifest-injector] Invalid manifest shape"]⟩
          else
            match applyManifest body doc with
            | (d, true) => ⟨1, d, ["[manifest-injector] Error"]⟩
            | (d, false) => ⟨1, d, ["[manifest-injector] Manifest applied successfully"]⟩

end ManifestInjector

/-!
Embedded Sync Channel state machine: origin admission, the Parent Origin
latch, the highlight singleton, and outbound event targeting
(`src/lib/preview-runtime.ts`, lines 49-153 and 515-526).
-/

namespace PreviewRuntime

mutual
/-- Locate the first match of a query as a path of child indices (used for
    the identity-bearing `_highlightedEl` reference). -/
def findPathE (p : Elem → Bool) (e : Elem) : Option (List Nat) :=
  match e with
  | .el t a st tx ls ks =>
    if p (.el t a st tx ls ks) then some [] else findPathL p ks

def findPathL (p : Elem → Bool) : List Elem → Option (List Nat)
  | [] => none
  | k :: rest =>
    match findPathE p k with
    | some pa => some (0 :: pa)
    | none =>
      match findPathL p rest with
      | some [] => some []
      | some (i :: tl) => some ((i + 1) :: tl)
      | none => none
end

mutual
/-- Mutate the node addressed by a child-index path. -/
def modifyAtPathE (f : Elem → Elem) (pa : List Nat) (e : Elem) : Elem :=
  match e with
  | .el t a st tx ls ks =>
    match pa with
    | [] => f (.el t a st tx ls ks)
    | _ :: _ => .el t a st tx ls (modifyAtPathL f pa ks)

def modifyAtPathL (f : Elem → Elem) : List Nat → List Elem → List Elem
  | _, [] => []
  | [], k :: rest => k :: rest
  | 0 :: pa, k :: rest => modifyAtPathE f pa k :: rest
  | (i + 1) :: pa, k :: rest => k :: modifyAtPathL f (i :: pa) rest
end

/-- `handleSectionHighlight` (lines 282-296): restore any prior highlight,
    then outline the requested section (a falsy id only clears). -/
def handleSectionHighlight (doc : Elem) (hl : Option (List Nat)) (sid : Option String) :
    Elem × Option (List Nat) :=
  let doc := match hl with
    | some pa =>
      (modifyAtPathL (fun e => (e.removeStyleProp "outline").removeStyleProp "outlineOffset")
        pa [doc]).headI
    | none => doc
  match sid with
  | none => (doc, none)
  | some s =>
    if s == "" then (doc, none)
    else
      match findPathL (attrIs "data-dr-section" s) [doc] with
      | none => (doc, none)
      | some pa =>
        ((modifyAtPathL
          (fun e => (e.setStyleProp "outline" "2px solid rgba(59, 130, 246, 0.5)").setStyleProp
            "outlineOffset" "-2px") pa [doc]).headI, some pa)

/-- The origin filter of `handleMessage` (lines 112-121), written as the
    code's negated conjunction: same origin, loopback/dev origins, the
    deployment-platform suffix, or any `https://` origin are admitted. -/
def originAllowed (page origin : String) : Bool :=
  !(!(origin == page)
    && !strStarts origin "http://localhost" && !strStarts origin "http://127.0.0.1"
    && !strStarts origin "https://localhost" && !strStarts origin "https://127.0.0.1"
    && !strEnds origin ".pages.dev"
    && !strStarts origin "https://")

/-- Inbound messages (`ParentToIframeMessage`, lines 17-23), plus a case for
    payloads with a missing or unknown `type`, which the handler ignores. -/
inductive PMsg where
  | fullUpdate (data : List (String × List (String × JValue))) (sections : List (String × Bool))
  | fieldUpdate (sectionId field : String) (value : JValue)
  | sectionToggle (sectionId : String) (enabled : Bool)
  | styleUpdate (sectionId field : String) (styles : List (String × String))
  | sectionHighlight (sectionId : Option String)
  | scrollToSection (sectionId : String)
  | unrecognized

/-- Outbound messages (`IframeToParentMessage`, lines 26-32). -/
inductive OutMsg where
  | fieldEdited (sectionId field value : String)
  | imageReplaceRequested (sectionId field : String)
  | aiSuggestRequested (sectionId field content : String)
  | elementSelected (sectionId field elementType content : String)
  | deselect
  | ready

/-- The module-level mutable state: the document, `_parentOrigin`
    (initially `"*"`, line 49) and `_highlightedEl` (line 50). -/
structure RState where
  dom : Elem
  parentOrigin : String
  highlighted : Option (List Nat)

/-- `handleMessage` (lines 110-153): drop unadmitted origins before any other
    step; latch the parent origin on the first admitted message; dispatch by
    message kind (`scroll-to-section` only scrolls — no tree state changes). -/
def handleMessage (page : String) (st : RState) (origin : String) (msg : PMsg) : RState :=
  if !(originAllowed page origin) then st
  else
    let po := if st.parentOrigin == "*" then origin else st.parentOrigin
    match msg with
    | .fullUpdate data sections => ⟨handleFullUpdate st.dom data sections, po, st.highlighted⟩
    | .fieldUpdate sid f v => ⟨handleFieldUpdate st.dom sid f v, po, st.highlighted⟩
    | .sectionToggle sid en => ⟨handleSectionToggle st.dom sid en, po, st.highlighted⟩
    | .styleUpdate sid f styles => ⟨handleStyleUpdate st.dom sid f styles, po, st.highlighted⟩
    | .sectionHighlight sid =>
      let dh := handleSectionHighlight st.dom st.highlighted sid
      ⟨dh.1, po, dh.2⟩
    | .scrollToSection _ => ⟨st.dom, po, st.highlighted⟩
    | .unrecognized => ⟨st.dom, po, st.highlighted⟩

/-- `sendToParent` (lines 522-526): every outbound message is posted with the
    current `_parentOrigin` as target origin. -/
def sendToParent (st : RState) (m : OutMsg) : OutMsg × String := (m, st.parentOrigin)

/-- Deliver a sequence of inbound messages (the host delivers them one at a
    time, in arrival order). -/
def runTrace (page : String) (msgs : List (String × PMsg)) (st : RState) : RState :=
  msgs.foldl (fun s om => handleMessage page s om.1 om.2) st

/-- The origin of the first message in a trace passing the origin filter. -/
def firstAcceptedOrigin (page : String) (msgs : List (String × PMsg)) : Option String :=
  (msgs.find? (fun om => originAllowed page om.1)).map (·.1)

/-- `initPreviewRuntime` (lines 63-106): bind the Inline Edit Surface and the
    image handlers, then post `ready`; the parent origin starts unconstrained.
    (The document-level click listeners for navigation and deselect register
    no element state.) -/
def initPreviewRuntime (doc : Elem) : RState × List (OutMsg × String) :=
  let d := setupImageClickHandlers (setupInlineEditing doc)
  let st : RState := ⟨d, "*", none⟩
  (st, [sendToParent st .ready])

/-- Number of `field-edited` events one `input` event on a bound node emits:
    one per registered input listener (lines 449-460). -/
def inputEditEmissions (e : Elem) : Nat := (e.listeners.filter (· == "input")).length

end PreviewRuntime

/-!
Decidable side conditions and concrete fixtures used by the statements below.
-/

/-- The scalar-item branch condition of the embedded list populate loop
    (line 347): `typeof itemData !== "object" || itemData === null`. -/
def itemScalar (it : JValue) : Bool := !it.typeofObject || it.isNull

/-- A list template: an `li` item containing an `x` field and a `y` field. -/
def fxTemplate : Elem :=
  .el "li" [("data-dr-list-item", "")] [] "" []
    [.el "span" [("data-dr-field", "x")] [] "TX" [] [],
     .el "span" [("data-dr-field", "y")] [] "TY" [] []]

/-- A list container holding only the template item. -/
def fxContainer : Elem := .el "ul" [("data-dr-list", "team")] [] "" [] [fxTemplate]

/-- Two object items with differing key sets. -/
def fxHeteroItems : List JValue :=
  [.jobj [("x", .jstr "A")], .jobj [("y", .jstr "B")]]

/-- Reads the text of the `x` field of each item of a container. -/
def fxReadX (c : Elem) : List (Option String) :=
  c.kids.map (fun k => (findL (attrIs "data-dr-field" "x") k.kids).map Elem.text)

/-- A document with a `hero` section containing a `title` field node. -/
def fxDoc : Elem :=
  .el "html" [] [] "" []
    [.el "section" [("data-dr-section", "hero")] [] "" []
      [.el "h1" [("data-dr-field", "title")] [] "Hello" [] []]]

/-- An initial runtime state over `fxDoc` with the parent origin unlatched. -/
def fxState : PreviewRuntime.RState := ⟨fxDoc, "*", none⟩

/-!
Helper lemmas about the DOM model.
-/

namespace Elem

@[simp] theorem tag_withKids (e : Elem) (ks : List Elem) : (e.withKids ks).tag = e.tag := by
  cases e <;> rfl

@[simp] theorem attrs_withKids (e : Elem) (ks : List Elem) : (e.withKids ks).attrs = e.attrs := by
  cases e <;> rfl

@[simp] theorem kids_withKids (e : Elem) (ks : List Elem) : (e.withKids ks).kids = ks := by
  cases e <;> rfl

@[simp] theorem tag_setText (e : Elem) (s : String) : (e.setText s).tag = e.tag := by
  cases e <;> rfl

@[simp] theorem attrs_setText (e : Elem) (s : String) : (e.setText s).attrs = e.attrs := by
  cases e <;> rfl

@[simp] theorem tag_setStyleProp (e : Elem) (p v : String) : (e.setStyleProp p v).tag = e.tag := by
  cases e <;> rfl

@[simp] theorem attrs_setStyleProp (e : Elem) (p v : String) :
    (e.setStyleProp p v).attrs = e.attrs := by
  cases e <;> rfl

@[simp] theorem attr_congr {e e' : Elem} (h : e.attrs = e'.attrs) (n : String) :
    e.attr n = e'.attr n := by
  simp [Elem.attr, h]

theorem setText_setText (e : Elem) (a b : String) : (e.setText a).setText b = e.setText b := by
  cases e <;> rfl

end Elem

theorem tagAttrsOnly_attrPresent (name : String) : tagAttrsOnly (attrPresent name) := by
  intro e e' _ ha
  simp [attrPresent, Elem.hasAttr, Elem.attr, ha]

mutual
theorem findE_mem_true {p : Elem → Bool} : ∀ {e r : Elem}, findE p e = some r → p r = true
  | .el t a st tx ls ks, r => by
    simp only [findE]
    by_cases hp : p (.el t a st tx ls ks)
    · simp only [hp, if_true, Option.some.injEq]
      rintro rfl
      exact hp
    · simp only [hp, Bool.false_eq_true, if_false]
      exact findL_mem_true

theorem findL_mem_true {p : Elem → Bool} : ∀ {l : List Elem} {r : Elem},
    findL p l = some r → p r = true
  | [], r => by simp [findL]
  | k :: rest, r => by
    simp only [findL]
    cases hk : findE p k with
    | some r' =>
      simp only [Option.some.injEq]
      rintro rfl
      exact findE_mem_true hk
    | none => exact findL_mem_true
end

theorem findL_append {p : Elem → Bool} : ∀ (a b : List Elem),
    findL p (a ++ b) = (findL p a).orElse (fun _ => findL p b)
  | [], b => rfl
  | k :: rest, b => by
    simp only [List.cons_append, findL]
    cases hk : findE p k with
    | some r => rfl
    | none => simpa using findL_append rest b

theorem findL_cons_true {p : Elem → Bool} {e : Elem} (he : p e = true) (rest : List Elem) :
    findL p (e :: rest) = some e := by
  cases e
  simp [findL, findE, he]

mutual
theorem rewriteE_of_mismatch {p : Elem → Bool} {f : Elem → Elem} :
    ∀ {e : Elem}, findE p e = none → rewriteE p f e = e
  | .el t a st tx ls ks => by
    simp only [findE, rewriteE]
    by_cases hp : p (.el t a st tx ls ks)
    · simp [hp]
    · simp only [hp, Bool.false_eq_true, if_false]
      intro h
      rw [rewriteL_of_findL_none h]

theorem rewriteL_of_findL_none {p : Elem → Bool} {f : Elem → Elem} :
    ∀ {l : List Elem}, findL p l = none → rewriteL p f l = l
  | [] => by simp [rewriteL]
  | k :: rest => by
    simp only [findL, rewriteL]
    cases hk : findE p k with
    | some r => simp
    | none =>
      intro h
      rw [rewriteL_of_findL_none h]
end

mutual
theorem findE_rewriteE {p : Elem → Bool} {g : Elem → Elem}
    (hk : tagAttrsOnly p) (hg : ∀ e, p (g e) = p e) :
    ∀ (e r : Elem), findE p e = some r → findE p (rewriteE p g e) = some (g r)
  | .el t a st tx ls ks, r => by
    simp only [findE, rewriteE]
    by_cases hp : p (.el t a st tx ls ks)
    · simp only [hp, if_true, Option.some.injEq]
      rintro rfl
      have hpg : p (g (.el t a st tx ls ks)) = true := by rw [hg]; exact hp
      cases hge : g (.el t a st tx ls ks) with
      | el t' a' st' tx' ls' ks' =>
        rw [hge] at hpg
        simp only [findE, hpg, if_true]
    · simp only [hp, Bool.false_eq_true, if_false]
      intro hks
      have hp' : p (Elem.el t a st tx ls (rewriteL p g ks)) = false := by
        rw [hk (Elem.el t a st tx ls (rewriteL p g ks)) (.el t a st tx ls ks) rfl rfl]
        simpa using hp
      simp only [findE, hp', Bool.false_eq_true, if_false]
      rw [findL_rewriteL hk hg ks, hks]
      rfl

theorem findL_rewriteL {p : Elem → Bool} {g : Elem → Elem}
    (hk : tagAttrsOnly p) (hg : ∀ e, p (g e) = p e) : ∀ (l : List Elem),
    findL p (rewriteL p g l) = (findL p l).map g
  | [] => by simp [findL, rewriteL]
  | k :: rest => by
    simp only [findL, rewriteL]
    cases hk2 : findE p k with
    | some r =>
      have := findE_rewriteE hk hg k r hk2
      simp [findL, this]
    | none =>
      have hnone : findE p k = none := hk2
      simp only [findL, hnone]
      rw [findL_rewriteL hk hg rest]
end

mutual
theorem rewriteE_rewriteE {p : Elem → Bool} {f g : Elem → Elem}
    (hk : tagAttrsOnly p) (hg : ∀ e, p (g e) = p e) : ∀ (e : Elem),
    rewriteE p f (rewriteE p g e) = rewriteE p (fun x => f (g x)) e
  | .el t a st tx ls ks => by
    simp only [rewriteE]
    by_cases hp : p (.el t a st tx ls ks)
    · simp only [hp, if_true]
      have hpg : p (g (.el t a st tx ls ks)) = true := by rw [hg]; exact hp
      cases hge : g (.el t a st tx ls ks) with
      | el t' a' st' tx' ls' ks' =>
        rw [hge] at hpg
        simp only [rewriteE, hpg, if_true]
    · have hp' : p (Elem.el t a st tx ls (rewriteL p g ks)) = false := by
        rw [hk (Elem.el t a st tx ls (rewriteL p g ks)) (.el t a st tx ls ks) rfl rfl]
        simpa using hp
      simp only [hp, Bool.false_eq_true, if_false, rewriteE, hp']
      rw [rewriteL_rewriteL hk hg ks]

theorem rewriteL_rewriteL {p : Elem → Bool} {f g : Elem → Elem}
    (hk : tagAttrsOnly p) (hg : ∀ e, p (g e) = p e) : ∀ (l : List Elem),
    rewriteL p f (rewriteL p g l) = rewriteL p (fun x => f (g x)) l
  | [] => by simp [rewriteL]
  | k :: rest => by
    simp only [rewriteL]
    cases hk2 : findE p k with
    | some r =>
      have hfind := findE_rewriteE hk hg k r hk2
      simp only [rewriteL, hfind]
      rw [rewriteE_rewriteE hk hg k]
    | none =>
      simp only [rewriteL, hk2]
      rw [rewriteL_rewriteL hk hg rest]
end

theorem rewriteL_congr {p : Elem → Bool} {f g : Elem → Elem}
    (h : ∀ e, f e = g e) (l : List Elem) : rewriteL p f l = rewriteL p g l := by
  have hfg : f = g := funext h
  rw [hfg]

/-- `dropItems` distributes over append. -/
theorem dropItems_append : ∀ (a b : List Elem), dropItems (a ++ b) = dropItems a ++ dropItems b
  | [], b => by simp [dropItems]
  | k :: rest, b => by
    simp only [List.cons_append, dropItems]
    by_cases hp : attrPresent "data-dr-list-item" k
    · simp [hp, dropItems_append rest b]
    · simp [hp, dropItems_append rest b]

mutual
theorem findE_item_dropItemsE : ∀ (e : Elem), attrPresent "data-dr-list-item" e = false →
    findE (attrPresent "data-dr-list-item") (dropItemsE e) = none
  | .el t a st tx ls ks => by
    intro hp
    have hp' : attrPresent "data-dr-list-item" (Elem.el t a st tx ls (dropItems ks)) = false := by
      rw [tagAttrsOnly_attrPresent "data-dr-list-item"
        (Elem.el t a st tx ls (dropItems ks)) (.el t a st tx ls ks) rfl rfl]
      exact hp
    simp only [dropItemsE, findE, hp', Bool.false_eq_true, if_false]
    exact findL_item_dropItems ks

/-- After `dropItems`, no list-item node remains at any depth. -/
theorem findL_item_dropItems : ∀ (l : List Elem),
    findL (attrPresent "data-dr-list-item") (dropItems l) = none
  | [] => by simp [dropItems, findL]
  | k :: rest => by
    simp only [dropItems]
    by_cases hp : attrPresent "data-dr-list-item" k
    · simp [hp, findL_item_dropItems rest]
    · simp only [hp, Bool.false_eq_true, if_false, findL]
      rw [findE_item_dropItemsE k (by simpa using hp)]
      exact findL_item_dropItems rest
end

theorem findL_item_dropItems_append (a b : List Elem) :
    findL (attrPresent "data-dr-list-item") (dropItems a ++ b) =
    findL (attrPresent "data-dr-list-item") b := by
  rw [findL_append, findL_item_dropItems]
  rfl

mutual
theorem dropItemsE_idem : ∀ (e : Elem), dropItemsE (dropItemsE e) = dropItemsE e
  | .el t a st tx ls ks => by
    simp only [dropItemsE]
    rw [dropItems_idem ks]

theorem dropItems_idem : ∀ (l : List Elem), dropItems (dropItems l) = dropItems l
  | [] => by simp [dropItems]
  | k :: rest => by
    simp only [dropItems]
    by_cases hp : attrPresent "data-dr-list-item" k
    · simp [hp, dropItems_idem rest]
    · have hp' : attrPresent "data-dr-list-item" (dropItemsE k) = false := by
        cases k with
        | el t a st tx ls ks =>
          simp only [dropItemsE]
          rw [tagAttrsOnly_attrPresent "data-dr-list-item"
            (Elem.el t a st tx ls (dropItems ks)) (.el t a st tx ls ks) rfl rfl]
          simpa using hp
      simp only [hp, Bool.false_eq_true, if_false, dropItems, hp']
      rw [dropItemsE_idem k, dropItems_idem rest]
end

/-- A forest of item-rooted nodes is wholly removed. -/
theorem dropItems_all_items : ∀ (l : List Elem),
    (∀ e ∈ l, attrPresent "data-dr-list-item" e = true) → dropItems l = []
  | [], _ => by simp [dropItems]
  | k :: rest, h => by
    have hp := h _ (List.mem_cons_self _ _)
    simp only [dropItems, hp, if_true]
    exact dropItems_all_items rest (fun e he => h e (List.mem_cons_of_mem _ he))

mutual
/-- A throw-free per-container rewrite agrees with the pure traversal. -/
theorem rewriteAllEE_pure {p : Elem → Bool} {fE : Elem → Elem × Bool} {g : Elem → Elem}
    (h : ∀ e, fE e = (g e, false)) : ∀ (e : Elem),
    rewriteAllEE p fE e = (rewriteAllE p g e, false)
  | .el t a st tx ls ks => by
    simp only [rewriteAllEE, rewriteAllE]
    by_cases hp : p (.el t a st tx ls ks)
    · simp [hp, h _]
    · simp [hp, rewriteAllLE_pure h ks]

theorem rewriteAllLE_pure {p : Elem → Bool} {fE : Elem → Elem × Bool} {g : Elem → Elem}
    (h : ∀ e, fE e = (g e, false)) : ∀ (l : List Elem),
    rewriteAllLE p fE l = (rewriteAllL p g l, false)
  | [] => by simp [rewriteAllLE, rewriteAllL]
  | k :: rest => by
    simp only [rewriteAllLE, rewriteAllL]
    rw [rewriteAllEE_pure h k]
    simp only [Bool.false_eq_true, if_false]
    rw [rewriteAllLE_pure h rest]
end

mutual
/-- A rewrite of the single first match agrees with the pure traversal when the
    rewrite does not throw at that match. -/
theorem rewriteEE_pure_at {p : Elem → Bool} {fE : Elem → Elem × Bool} {g : Elem → Elem} :
    ∀ (e r : Elem), findE p e = some r → fE r = (g r, false) →
    rewriteEE p fE e = (rewriteE p g e, false)
  | .el t a st tx ls ks, r => by
    simp only [findE, rewriteEE, rewriteE]
    by_cases hp : p (.el t a st tx ls ks)
    · simp only [hp, if_true, Option.some.injEq]
      rintro rfl hfE
      simp [hfE]
    · simp only [hp, Bool.false_eq_true, if_false]
      intro hks hfE
      rw [rewriteLE_pure_at ks r hks hfE]

theorem rewriteLE_pure_at {p : Elem → Bool} {fE : Elem → Elem × Bool} {g : Elem → Elem} :
    ∀ (l : List Elem) (r : Elem), findL p l = some r → fE r = (g r, false) →
    rewriteLE p fE l = (rewriteL p g l, false)
  | [], r => by simp [findL]
  | k :: rest, r => by
    simp only [findL, rewriteLE, rewriteL]
    cases hk : findE p k with
    | some r' =>
      simp only [Option.some.injEq]
      rintro rfl hfE
      rw [rewriteEE_pure_at k _ hk hfE]
    | none =>
      intro hrest hfE
      rw [rewriteLE_pure_at rest r hrest hfE]
end

@[simp] theorem Elem.withKids_withKids (e : Elem) (a b : List Elem) :
    (e.withKids a).withKids b = e.withKids b := by
  cases e
  rfl

/-- Writing the same field twice absorbs: the second text write lands on the
    same (attribute-unchanged) first match and overwrites the first. -/
theorem rewriteL_setText_absorb {name : String} (a b : String) (l : List Elem) :
    rewriteL (attrPresent name) (fun e => e.setText b)
      (rewriteL (attrPresent name) (fun e => e.setText a) l) =
    rewriteL (attrPresent name) (fun e => e.setText b) l := by
  rw [rewriteL_rewriteL (tagAttrsOnly_attrPresent name)
    (fun e => tagAttrsOnly_attrPresent name _ _ (Elem.tag_setText e a) (Elem.attrs_setText e a))]
  exact rewriteL_congr (fun e => by rw [Elem.setText_setText]) l

namespace PreviewRuntime

theorem populateItem_scalar {it : JValue} (h : itemScalar it = true) (tpl : Elem) :
    populateItem tpl it =
      tpl.rewriteQuery (attrPresent "data-dr-field") (fun e => e.setText (JValue.jToString it)) := by
  unfold populateItem
  unfold itemScalar at h
  rw [h]
  rfl

theorem populateItem_scalar_attrs {it : JValue} (h : itemScalar it = true) (tpl : Elem) :
    (populateItem tpl it).attrs = tpl.attrs ∧ (populateItem tpl it).tag = tpl.tag := by
  rw [populateItem_scalar h]
  exact ⟨Elem.attrs_withKids _ _, Elem.tag_withKids _ _⟩

theorem populate_scalar_absorb {a b : JValue} (ha : itemScalar a = true)
    (hb : itemScalar b = true) (tpl : Elem) :
    populateItem (populateItem tpl a) b = populateItem tpl b := by
  rw [populateItem_scalar ha, populateItem_scalar hb, populateItem_scalar hb]
  unfold Elem.rewriteQuery
  rw [Elem.withKids_withKids, Elem.kids_withKids, rewriteL_setText_absorb]

end PreviewRuntime

/-- C4 (amended): for all-scalar item sequences, reconciling the same items
    twice yields exactly the same container (hence the same rendered item
    count and per-item content) as reconciling them once. -/
theorem claim4_scalar_reconcile_idempotent (c : Elem) (items : List JValue)
    (h : ∀ it ∈ items, itemScalar it = true) :
    PreviewRuntime.reconcileContainer (PreviewRuntime.reconcileContainer c items) items =
      PreviewRuntime.reconcileContainer c items := by
  unfold PreviewRuntime.reconcileContainer
  unfold Elem.query
  cases h1 : findL (attrPresent "data-dr-list-item") c.kids with
  | none => simp [h1]
  | some tpl =>
    simp only [h1, Elem.kids_withKids]
    rw [findL_item_dropItems_append]
    cases items with
    | nil =>
      simp [findL]
    | cons it0 rest =>
      have hsc0 : itemScalar it0 = true := h it0 (List.mem_cons_self _ _)
      have htpl : attrPresent "data-dr-list-item" tpl = true := findL_mem_true h1
      have hattrs := PreviewRuntime.populateItem_scalar_attrs hsc0 tpl
      have hn0 : attrPresent "data-dr-list-item" (PreviewRuntime.populateItem tpl it0) = true := by
        rw [tagAttrsOnly_attrPresent "data-dr-list-item" _ tpl hattrs.2 hattrs.1]
        exact htpl
      simp only [List.map_cons]
      rw [findL_cons_true hn0]
      show ((c.withKids _).withKids _) = _
      rw [Elem.withKids_withKids]
      congr 1
      rw [dropItems_append, dropItems_idem]
      have hdrop : dropItems (PreviewRuntime.populateItem tpl it0 ::
          rest.map (PreviewRuntime.populateItem tpl)) = [] := by
        apply dropItems_all_items
        intro e he
        rcases List.mem_cons.mp he with rfl | hmem
        · exact hn0
        · rcases List.mem_map.mp hmem with ⟨it, hit, rfl⟩
          have hsc : itemScalar it = true := h it (List.mem_cons_of_mem _ hit)
          have ha := PreviewRuntime.populateItem_scalar_attrs hsc tpl
          rw [tagAttrsOnly_attrPresent "data-dr-list-item" _ tpl ha.2 ha.1]
          exact htpl
      rw [hdrop, List.append_nil]
      have hhead := PreviewRuntime.populate_scalar_absorb hsc0 hsc0 tpl
      have htail : List.map (PreviewRuntime.populateItem (PreviewRuntime.populateItem tpl it0)) rest
          = List.map (PreviewRuntime.populateItem tpl) rest := by
        apply List.map_congr_left
        intro it hit
        exact PreviewRuntime.populate_scalar_absorb hsc0 (h it (List.mem_cons_of_mem _ hit)) tpl
      rw [hhead, htail]

/-- C4, counterexample: with two object items of differing key sets, applying
    the same items twice differs from applying them once — the second pass
    recaptures the first populated item as template, so the second item
    inherits the first item's `x` value instead of the original template text. -/
theorem claim4_counterexample :
    PreviewRuntime.reconcileContainer
      (PreviewRuntime.reconcileContainer fxContainer fxHeteroItems) fxHeteroItems ≠
    PreviewRuntime.reconcileContainer fxContainer fxHeteroItems := by
  intro hcontra
  exact absurd (congrArg fxReadX hcontra) (by decide)

/-- C4, witness for the amended theorem, at a concrete scalar item list. -/
theorem claim4_witness :
    (∀ it ∈ [JValue.jstr "alpha", JValue.jstr "beta"], itemScalar it = true) ∧
    PreviewRuntime.reconcileContainer
      (PreviewRuntime.reconcileContainer fxContainer [JValue.jstr "alpha", JValue.jstr "beta"])
      [JValue.jstr "alpha", JValue.jstr "beta"] =
    PreviewRuntime.reconcileContainer fxContainer [JValue.jstr "alpha", JValue.jstr "beta"] :=
  ⟨by decide, claim4_scalar_reconcile_idempotent _ _ (by decide)⟩

/-- C2: reconciling with `items = []` removes the template along with the
    other item nodes and retains no copy, so a subsequent non-empty
    reconciliation of the same container is a no-op and yields zero item
    nodes — while a direct non-empty reconciliation yields one. The claim
    (and spec §8) says the subsequent update still produces the populated
    item nodes; the code drops the template permanently. -/
theorem claim2_empty_reconcile_loses_template :
    countL (attrPresent "data-dr-list-item")
      (PreviewRuntime.reconcileContainer fxContainer []).kids = 0 ∧
    PreviewRuntime.reconcileContainer (PreviewRuntime.reconcileContainer fxContainer [])
      [JValue.jobj [("x", JValue.jstr "A")]] =
      PreviewRuntime.reconcileContainer fxContainer [] ∧
    countL (attrPresent "data-dr-list-item")
      (PreviewRuntime.reconcileContainer fxContainer
        [JValue.jobj [("x", JValue.jstr "A")]]).kids = 1 :=
  ⟨by decide, rfl, by decide⟩

/-- C9: binding the Inline Edit Surface is not idempotent — `bind` registers a
    fresh closure per call, so after two binds the field node carries two
    input listeners and a single input event emits two `field-edited` events
    instead of one. -/
theorem claim9_rebind_duplicates_listeners :
    ((findL (attrIs "data-dr-field" "title")
      [PreviewRuntime.setupInlineEditing (PreviewRuntime.setupInlineEditing fxDoc)]).map
        PreviewRuntime.inputEditEmissions) = some 2 ∧
    ((findL (attrIs "data-dr-field" "title")
      [PreviewRuntime.setupInlineEditing fxDoc]).map
        PreviewRuntime.inputEditEmissions) = some 1 := by
  decide

/-- C1, counterexample: `http://attacker.pages.dev` is a non-HTTPS,
    non-loopback origin different from the page's own origin — inside the
    claim's untrusted class — yet the message is not dropped: the Parent
    Origin latches onto it. -/
theorem claim1_counterexample :
    strStarts "http://attacker.pages.dev" "https://" = false ∧
    strStarts "http://attacker.pages.dev" "http://localhost" = false ∧
    strStarts "http://attacker.pages.dev" "http://127.0.0.1" = false ∧
    strStarts "http://attacker.pages.dev" "https://localhost" = false ∧
    strStarts "http://attacker.pages.dev" "https://127.0.0.1" = false ∧
    ¬("http://attacker.pages.dev" = "https://example.com") ∧
    (PreviewRuntime.handleMessage "https://example.com" fxState
      "http://attacker.pages.dev" (.sectionHighlight none)).parentOrigin =
      "http://attacker.pages.dev" := by
  refine ⟨by decide, by decide, by decide, by decide, by decide, by decide, ?_⟩
  decide

/-- C1 (amended): a message whose origin fails the admission filter — not the
    page's own origin, not a loopback/dev origin, not ending in the
    deployment-platform suffix `.pages.dev`, and not of a secure scheme — is
    dropped entirely: the state (DOM, Parent Origin latch, highlight) is
    unchanged and no applier runs. -/
theorem claim1_origin_filter_drops_unadmitted (page : String) (st : PreviewRuntime.RState)
    (origin : String) (msg : PreviewRuntime.PMsg)
    (h : PreviewRuntime.originAllowed page origin = false) :
    PreviewRuntime.handleMessage page st origin msg = st := by
  simp [PreviewRuntime.handleMessage, h]

/-- C1, witness: a plain `http://` non-loopback origin is rejected and its
    message leaves the state untouched. -/
theorem claim1_witness :
    PreviewRuntime.originAllowed "https://example.com" "http://evil.com" = false ∧
    PreviewRuntime.handleMessage "https://example.com" fxState "http://evil.com"
      (.sectionHighlight none) = fxState :=
  ⟨by decide, claim1_origin_filter_drops_unadmitted _ _ _ _ (by decide)⟩

/-- C7: applying a null or undefined value to a located field node leaves the
    containing element (content, attributes, styles, visibility) completely
    unchanged, on both the embedded channel and the remote hydration channel. -/
theorem claim7_nullish_value_noop (c : Elem) (f : String) :
    PreviewRuntime.updateFieldElement c f .jnull = c ∧
    PreviewRuntime.updateFieldElement c f .jundef = c ∧
    ManifestInjector.updateField c f .jnull = c ∧
    ManifestInjector.updateField c f .jundef = c := by
  unfold PreviewRuntime.updateFieldElement ManifestInjector.updateField
  cases hq : c.query (attrIs "data-dr-field" f) <;> simp [hq, JValue.isNullish]

theorem lookup_cons_beq (a k b : String) (es : List (String × String)) :
    List.lookup a ((k, b) :: es) = if a == k then some b else List.lookup a es := by
  rw [List.lookup]
  cases h : a == k <;> simp

theorem lookup_map_overwrite (key v q : String) (l : List (String × String)) :
    List.lookup q (l.map (fun e => if e.1 == key then (key, v) else e)) =
    if q = key then (if (List.lookup key l).isSome then some v else none)
    else List.lookup q l := by
  induction l with
  | nil =>
    by_cases hq : q = key <;> simp [List.lookup, hq]
  | cons kv rest ih =>
    obtain ⟨k1, v1⟩ := kv
    simp only [List.map_cons]
    by_cases hk : k1 = key
    · subst hk
      have hbeq : (k1 == k1) = true := by simp
      simp only [hbeq, if_true]
      rw [lookup_cons_beq, lookup_cons_beq]
      by_cases hq : q = k1
      · have hq' : (q == k1) = true := by simpa using hq
        simp [hq', hq]
      · have hq' : (q == k1) = false := by simpa using hq
        simp only [hq', Bool.false_eq_true, if_false]
        rw [ih]
        simp only [hq, if_false]
        rw [lookup_cons_beq]
        simp [hq']
    · have hk' : (k1 == key) = false := by simpa using hk
      simp only [hk', Bool.false_eq_true, if_false]
      rw [lookup_cons_beq, lookup_cons_beq]
      by_cases hq : q = k1
      · have hq' : (q == k1) = true := by simpa using hq
        have hqkey : ¬(q = key) := fun h2 => hk (hq.symm.trans h2)
        simp only [hq', if_true, hqkey, if_false]
        rw [lookup_cons_beq]
        simp [hq']
      · have hq' : (q == k1) = false := by simpa using hq
        simp only [hq', Bool.false_eq_true, if_false]
        rw [ih]
        by_cases h2 : q = key
        · subst h2
          simp only [lookup_cons_beq, hq', Bool.false_eq_true, if_false, if_true]
        · simp only [h2, if_false]
          rw [lookup_cons_beq]
          simp [hq']

theorem lookup_propSet (l : List (String × String)) (key v q : String) :
    (Elem.propSet l key v).lookup q = if q = key then some v else l.lookup q := by
  unfold Elem.propSet
  by_cases hmem : (List.lookup key l).isSome
  · rw [if_pos hmem, lookup_map_overwrite]
    by_cases hq : q = key <;> simp [hq, hmem]
  · rw [if_neg hmem]
    have hnone : List.lookup key l = none := Option.not_isSome_iff_eq_none.mp hmem
    rw [List.lookup_append]
    by_cases hq : q = key
    · subst hq
      rw [hnone]
      simp [lookup_cons_beq]
    · have hq' : (q == key) = false := by simpa using hq
      cases hlq : List.lookup q l with
      | some w => simp [hq]
      | none => simp [List.lookup, hq', lookup_cons_beq, hq]
theorem styleProp_setStyleProp (e : Elem) (q v pr : String) :
    (e.setStyleProp q v).styleProp pr = if pr = q then some v else e.styleProp pr := by
  cases e with
  | el t a st tx ls ks =>
    simp only [Elem.setStyleProp, Elem.styleProp, Elem.style]
    exact lookup_propSet st q v pr

theorem applyAllowedStyles_cons (e : Elem) (q w : String) (rest : List (String × String)) :
    PreviewRuntime.applyAllowedStyles e ((q, w) :: rest) =
    PreviewRuntime.applyAllowedStyles
      (if PreviewRuntime.allowedStyleProps.contains q then e.setStyleProp q w else e) rest := by
  simp [PreviewRuntime.applyAllowedStyles]

theorem applyAllowedStyles_not_allowed (pr : String)
    (hpr : PreviewRuntime.allowedStyleProps.contains pr = false) :
    ∀ (styles : List (String × String)) (e : Elem),
    (PreviewRuntime.applyAllowedStyles e styles).styleProp pr = e.styleProp pr
  | [], e => rfl
  | (q, w) :: rest, e => by
    rw [applyAllowedStyles_cons]
    by_cases hq : PreviewRuntime.allowedStyleProps.contains q
    · rw [if_pos hq]
      rw [applyAllowedStyles_not_allowed pr hpr rest]
      rw [styleProp_setStyleProp]
      have hne : ¬(pr = q) := by
        intro h
        rw [h] at hpr
        rw [hpr] at hq
        exact Bool.false_ne_true hq
      rw [if_neg hne]
    · rw [if_neg hq]
      exact applyAllowedStyles_not_allowed pr hpr rest e

theorem applyAllowedStyles_absent (pr : String) :
    ∀ (styles : List (String × String)) (e : Elem), pr ∉ styles.map Prod.fst →
    (PreviewRuntime.applyAllowedStyles e styles).styleProp pr = e.styleProp pr
  | [], e, _ => rfl
  | (q, w) :: rest, e, h => by
    have hq : ¬(pr = q) := by
      intro hh
      exact h (by simp [hh])
    have hrest : pr ∉ rest.map Prod.fst := by
      intro hh
      exact h (by simp [hh])
    rw [applyAllowedStyles_cons]
    by_cases hqa : PreviewRuntime.allowedStyleProps.contains q
    · rw [if_pos hqa, applyAllowedStyles_absent pr rest _ hrest, styleProp_setStyleProp,
        if_neg hq]
    · rw [if_neg hqa]
      exact applyAllowedStyles_absent pr rest e hrest

theorem applyAllowedStyles_allowed_mem (pr v : String) :
    ∀ (styles : List (String × String)) (e : Elem), (styles.map Prod.fst).Nodup →
    (pr, v) ∈ styles → PreviewRuntime.allowedStyleProps.contains pr = true →
    (PreviewRuntime.applyAllowedStyles e styles).styleProp pr = some v
  | [], e, _, hmem, _ => absurd hmem (List.not_mem_nil _)
  | (q, w) :: rest, e, hnd, hmem, hal => by
    rw [applyAllowedStyles_cons]
    rcases List.mem_cons.mp hmem with heq | hrest
    · obtain ⟨rfl, rfl⟩ := Prod.mk.inj heq
      rw [if_pos hal]
      have habsent : pr ∉ rest.map Prod.fst := by
        have := hnd
        simp only [List.map_cons, List.nodup_cons] at this
        exact this.1
      rw [applyAllowedStyles_absent pr rest _ habsent, styleProp_setStyleProp, if_pos rfl]
    · have hnd' : (rest.map Prod.fst).Nodup := by
        simp only [List.map_cons, List.nodup_cons] at hnd
        exact hnd.2
      by_cases hqa : PreviewRuntime.allowedStyleProps.contains q
      · rw [if_pos hqa]
        exact applyAllowedStyles_allowed_mem pr v rest _ hnd' hrest hal
      · rw [if_neg hqa]
        exact applyAllowedStyles_allowed_mem pr v rest e hnd' hrest hal

/-- C6: in a style update, every payload property on the fixed allow list is
    reflected on the target node's style, and every payload property off the
    allow list leaves that node's style declaration unchanged (and raises no
    error — the applier is total), even when both kinds appear in the same
    payload. -/
theorem claim6_style_allowlist (e : Elem) (styles : List (String × String)) :
    ((styles.map Prod.fst).Nodup →
      ∀ pr v, (pr, v) ∈ styles → PreviewRuntime.allowedStyleProps.contains pr = true →
        (PreviewRuntime.applyAllowedStyles e styles).styleProp pr = some v) ∧
    (∀ pr, PreviewRuntime.allowedStyleProps.contains pr = false →
      (PreviewRuntime.applyAllowedStyles e styles).styleProp pr = e.styleProp pr) :=
  ⟨fun hnd pr v hmem hal => applyAllowedStyles_allowed_mem pr v styles e hnd hmem hal,
   fun pr hpr => applyAllowedStyles_not_allowed pr hpr styles e⟩

/-- C6, witness: a payload mixing an allowed (`color`) and a disallowed
    (`position`) property applied to a bare node. -/
theorem claim6_witness :
    (PreviewRuntime.applyAllowedStyles (.el "div" [] [("position", "static")] "" [] [])
      [("color", "red"), ("position", "fixed")]).styleProp "color" = some "red" ∧
    (PreviewRuntime.applyAllowedStyles (.el "div" [] [("position", "static")] "" [] [])
      [("color", "red"), ("position", "fixed")]).styleProp "position" = some "static" :=
  ⟨(claim6_style_allowlist _ _).1 (by decide) "color" "red" (by decide) (by decide),
   by
    rw [(claim6_style_allowlist (.el "div" [] [("position", "static")] "" [] [])
      [("color", "red"), ("position", "fixed")]).2 "position" (by decide)]
    decide⟩

namespace PreviewRuntime

/-- How one handled message transforms `_parentOrigin`: rejected messages
    leave it; the first accepted message latches it; later accepted messages
    keep the latch. -/
theorem handleMessage_parentOrigin (page : String) (st : RState) (o : String) (m : PMsg) :
    (handleMessage page st o m).parentOrigin =
    if originAllowed page o then (if st.parentOrigin == "*" then o else st.parentOrigin)
    else st.parentOrigin := by
  unfold handleMessage
  by_cases h : originAllowed page o
  · simp only [h, Bool.not_true, Bool.false_eq_true, if_false, if_true]
    cases m <;> rfl
  · simp only [Bool.not_eq_true] at h
    simp [h]

theorem handleMessage_of_rejected (page : String) (st : RState) (o : String) (m : PMsg)
    (h : originAllowed page o = false) : handleMessage page st o m = st := by
  simp [handleMessage, h]

theorem runTrace_latched (page : String) : ∀ (msgs : List (String × PMsg)) (st : RState),
    st.parentOrigin ≠ "*" → (runTrace page msgs st).parentOrigin = st.parentOrigin
  | [], st, _ => rfl
  | (o1, m1) :: rest, st, h => by
    show (runTrace page rest (handleMessage page st o1 m1)).parentOrigin = _
    have hpo : (handleMessage page st o1 m1).parentOrigin = st.parentOrigin := by
      rw [handleMessage_parentOrigin]
      have hbeq : (st.parentOrigin == "*") = false := by simpa using h
      by_cases ha : originAllowed page o1 <;> simp [ha, hbeq]
    rw [runTrace_latched page rest _ (by rw [hpo]; exact h), hpo]

theorem originAllowed_star_false (page : String) (hpage : page ≠ "*") :
    originAllowed page "*" = false := by
  unfold originAllowed
  have h1 : ("*" == page) = false := by
    simp only [beq_eq_false_iff_ne, ne_eq]
    intro h
    exact hpage h.symm
  rw [h1]
  rfl

theorem accepted_ne_star {page o : String} (hpage : page ≠ "*")
    (h : originAllowed page o = true) : o ≠ "*" := by
  intro rfl2
  rw [rfl2] at h
  rw [originAllowed_star_false page hpage] at h
  exact Bool.false_ne_true h

theorem runTrace_first_accepted (page o : String) (hpage : page ≠ "*") :
    ∀ (msgs : List (String × PMsg)) (st : RState), st.parentOrigin = "*" →
    firstAcceptedOrigin page msgs = some o → (runTrace page msgs st).parentOrigin = o
  | [], st, _, hfirst => by simp [firstAcceptedOrigin] at hfirst
  | (o1, m1) :: rest, st, h0, hfirst => by
    show (runTrace page rest (handleMessage page st o1 m1)).parentOrigin = o
    by_cases ha : originAllowed page (o1, m1).1
    · have : firstAcceptedOrigin page ((o1, m1) :: rest) = some o1 := by
        unfold firstAcceptedOrigin
        simp only [List.find?]
        simp only [ha]
        rfl
      rw [this] at hfirst
      obtain rfl : o1 = o := by simpa using hfirst
      have hpo : (handleMessage page st o1 m1).parentOrigin = o1 := by
        rw [handleMessage_parentOrigin]
        have hbeq : (st.parentOrigin == "*") = true := by simpa using h0
        simp [ha, hbeq]
      rw [runTrace_latched page rest _
        (by rw [hpo]; exact accepted_ne_star hpage ha), hpo]
    · have ha' : originAllowed page o1 = false := by simpa using ha
      have hst : handleMessage page st o1 m1 = st := handleMessage_of_rejected page st o1 m1 ha'
      have : firstAcceptedOrigin page ((o1, m1) :: rest) = firstAcceptedOrigin page rest := by
        unfold firstAcceptedOrigin
        simp only [List.find?]
        simp only [ha']
      rw [this] at hfirst
      rw [hst]
      exact runTrace_first_accepted page o hpage rest st h0 hfirst

theorem runTrace_no_accepted (page : String) :
    ∀ (msgs : List (String × PMsg)) (st : RState), st.parentOrigin = "*" →
    firstAcceptedOrigin page msgs = none → (runTrace page msgs st).parentOrigin = "*"
  | [], st, h0, _ => h0
  | (o1, m1) :: rest, st, h0, hnone => by
    show (runTrace page rest (handleMessage page st o1 m1)).parentOrigin = "*"
    have ha : originAllowed page o1 = false := by
      by_contra hcon
      have ha2 : originAllowed page o1 = true := by
        simpa using Bool.not_eq_false _ ▸ hcon
      unfold firstAcceptedOrigin at hnone
      simp only [List.find?] at hnone
      simp only [ha2] at hnone
      simp at hnone
    have htail : firstAcceptedOrigin page rest = none := by
      unfold firstAcceptedOrigin at hnone ⊢
      simp only [List.find?] at hnone
      simp only [ha] at hnone
      exact hnone
    rw [handleMessage_of_rejected page st o1 m1 ha]
    exact runTrace_no_accepted page rest st h0 htail

end PreviewRuntime

/-- C5: the Parent Origin is latched to the origin of the first message that
    passes the origin filter, is never reset by any further message sequence,
    is never the wildcard, and every outbound event emitted from any state
    reached after latching is posted to exactly that latched origin. -/
theorem claim5_parent_origin_latch (page : String) (msgs : List (String × PreviewRuntime.PMsg))
    (st0 : PreviewRuntime.RState) (o : String)
    (h0 : st0.parentOrigin = "*") (hpage : page ≠ "*")
    (hfirst : PreviewRuntime.firstAcceptedOrigin page msgs = some o) :
    (PreviewRuntime.runTrace page msgs st0).parentOrigin = o ∧ o ≠ "*" ∧
    (∀ (msgs2 : List (String × PreviewRuntime.PMsg)) (m : PreviewRuntime.OutMsg),
      PreviewRuntime.sendToParent
        (PreviewRuntime.runTrace page msgs2 (PreviewRuntime.runTrace page msgs st0)) m =
      (m, o)) := by
  have hlatch := PreviewRuntime.runTrace_first_accepted page o hpage msgs st0 h0 hfirst
  have ho : o ≠ "*" := by
    have hacc : PreviewRuntime.originAllowed page o = true := by
      unfold PreviewRuntime.firstAcceptedOrigin at hfirst
      cases hfind : List.find? (fun om => PreviewRuntime.originAllowed page om.1) msgs with
      | none => rw [hfind] at hfirst; simp at hfirst
      | some om =>
        rw [hfind] at hfirst
        have hom := List.find?_some hfind
        have : om.1 = o := by simpa using hfirst
        rw [← this]
        exact hom
    exact PreviewRuntime.accepted_ne_star hpage hacc
  refine ⟨hlatch, ho, fun msgs2 m => ?_⟩
  unfold PreviewRuntime.sendToParent
  rw [PreviewRuntime.runTrace_latched page msgs2 _ (by rw [hlatch]; exact ho), hlatch]

/-- C5, witness: a two-message trace whose first accepted origin is the admin
    portal origin; the latch and the outbound target both equal it. -/
theorem claim5_witness :
    (PreviewRuntime.runTrace "https://site.example"
      [("https://admin.example", .sectionHighlight none), ("https://other.example", .unrecognized)]
      fxState).parentOrigin = "https://admin.example" := by
  have h := claim5_parent_origin_latch "https://site.example"
    [("https://admin.example", .sectionHighlight none), ("https://other.example", .unrecognized)]
    fxState "https://admin.example" (by rfl) (by decide) (by decide)
  exact h.1

/-- C10: until an inbound message passes the origin filter, the outbound
    target origin is the wildcard: the `ready` event posted during activation
    targets `"*"`, and after any trace with no accepted message every
    outbound event is still posted with the wildcard target. -/
theorem claim10_prelatch_wildcard (doc : Elem) (page : String)
    (msgs : List (String × PreviewRuntime.PMsg)) (st0 : PreviewRuntime.RState) :
    (PreviewRuntime.initPreviewRuntime doc).2 = [(PreviewRuntime.OutMsg.ready, "*")] ∧
    (st0.parentOrigin = "*" → PreviewRuntime.firstAcceptedOrigin page msgs = none →
      (PreviewRuntime.runTrace page msgs st0).parentOrigin = "*" ∧
      ∀ m : PreviewRuntime.OutMsg,
        PreviewRuntime.sendToParent (PreviewRuntime.runTrace page msgs st0) m = (m, "*")) := by
  refine ⟨rfl, fun h0 hnone => ?_⟩
  have h := PreviewRuntime.runTrace_no_accepted page msgs st0 h0 hnone
  exact ⟨h, fun m => by unfold PreviewRuntime.sendToParent; rw [h]⟩

/-- C10, witness: a trace consisting of one rejected message leaves the
    target origin at the wildcard. -/
theorem claim10_witness :
    (PreviewRuntime.initPreviewRuntime fxDoc).2 = [(PreviewRuntime.OutMsg.ready, "*")] ∧
    PreviewRuntime.sendToParent
      (PreviewRuntime.runTrace "https://site.example"
        [("http://evil.example", .fieldUpdate "hero" "title" (.jstr "x"))] fxState)
      .ready = (.ready, "*") := by
  have h := claim10_prelatch_wildcard fxDoc "https://site.example"
    [("http://evil.example", .fieldUpdate "hero" "title" (.jstr "x"))] fxState
  exact ⟨h.1, (h.2 (by rfl) (by decide)).2 .ready⟩

/-- C8: a manifest URL that is neither HTTPS nor loopback yields zero fetches
    and an unchanged document; a non-success response or a body that is not a
    truthy object carrying a `sections` array yields an unchanged document;
    each failure logs a message and is terminal (the result is final for the
    load, with no partial application). -/
theorem claim8_hydration_validation :
    (∀ (url : String) (resp : Option ManifestInjector.FetchOutcome) (doc : Elem),
      strStarts url "https://" = false → strStarts url "http://localhost" = false →
      strStarts url "http://127.0.0.1" = false →
      ManifestInjector.initManifestInjector url resp doc =
        ⟨0, doc, ["[manifest-injector] Blocked non-HTTPS manifest URL"]⟩) ∧
    (∀ (url : String) (body : Option JValue) (doc : Elem),
      (ManifestInjector.initManifestInjector url (some ⟨false, body⟩) doc).dom = doc ∧
      (ManifestInjector.initManifestInjector url (some ⟨false, body⟩) doc).logs ≠ []) ∧
    (∀ (url : String) (body : JValue) (doc : Elem),
      (body.truthy && (body.lookup "sections").isArray) = false →
      (ManifestInjector.initManifestInjector url (some ⟨true, some body⟩) doc).dom = doc ∧
      (ManifestInjector.initManifestInjector url (some ⟨true, some body⟩) doc).logs ≠ []) := by
  refine ⟨fun url resp doc h1 h2 h3 => ?_, fun url body doc => ?_, fun url body doc hval => ?_⟩
  · unfold ManifestInjector.initManifestInjector
    rw [h1, h2, h3]
    rfl
  · unfold ManifestInjector.initManifestInjector
    by_cases hs : (strStarts url "https://" || strStarts url "http://localhost" ||
        strStarts url "http://127.0.0.1")
    · simp only [hs, Bool.not_true, Bool.false_eq_true, if_false]
      exact ⟨by simp, by simp⟩
    · simp only [Bool.not_eq_true] at hs
      simp only [hs, Bool.not_false, if_true]
      exact ⟨by simp, by simp⟩
  · unfold ManifestInjector.initManifestInjector
    by_cases hs : (strStarts url "https://" || strStarts url "http://localhost" ||
        strStarts url "http://127.0.0.1")
    · simp only [hs, Bool.not_true, Bool.false_eq_true, if_false]
      simp only [Bool.not_true, hval, Bool.false_eq_true, if_false]
      exact ⟨by simp, by simp⟩
    · simp only [Bool.not_eq_true] at hs
      simp only [hs, Bool.not_false, if_true]
      exact ⟨by simp, by simp⟩

/-- C8, witness: an `http://` manifest URL is blocked without fetching; a 404
    response and a sections-less body each leave the document unchanged. -/
theorem claim8_witness :
    ManifestInjector.initManifestInjector "http://cdn.example/manifest.json" none fxDoc =
      ⟨0, fxDoc, ["[manifest-injector] Blocked non-HTTPS manifest URL"]⟩ ∧
    (ManifestInjector.initManifestInjector "https://cdn.example/manifest.json"
      (some ⟨false, none⟩) fxDoc).dom = fxDoc ∧
    (ManifestInjector.initManifestInjector "https://cdn.example/manifest.json"
      (some ⟨true, some (.jobj [("name", .jstr "x")])⟩) fxDoc).dom = fxDoc := by
  refine ⟨claim8_hydration_validation.1 _ _ _ (by decide) (by decide) (by decide), ?_, ?_⟩
  · exact (claim8_hydration_validation.2.1 "https://cdn.example/manifest.json" none fxDoc).1
  · exact (claim8_hydration_validation.2.2 "https://cdn.example/manifest.json"
      (.jobj [("name", .jstr "x")]) fxDoc (by decide)).1

